import Mathlib

/-!
Shallow embedding of the `speedtest` crate (cumulus13/speedtest), covering the
server catalog, best-server selection, the upload payload generator, the
haversine distance, and the session precondition checks.

Conventions of the embedding:
* `f64` values are idealised as rationals (`ℚ`), except in `utils::distance`
  where the trigonometric haversine formula forces real numbers (`ℝ`).
* HTTP and wall-clock effects are made explicit: a latency probe's outcome
  becomes a `ProbeResult` value supplied as input, a server-list download
  becomes a `BatchResult` value, and the time-boxed concurrent throughput
  engine (whose byte count and elapsed time are runtime observations) is
  abstracted as an `EngineOutcome` record.  The pure control flow around
  these inputs is translated line by line from the Rust source.
* `&mut self` methods become functions from the `Speedtest` state to a new
  state, paired with the returned value.
* The repository contains two generations of the selector code
  (`latency.rs::determine_best_server` and
  `speedtest.rs::get_best_server`/`measure_latency`); both are embedded.
-/

namespace SpeedtestRS

/-- Client record from the speedtest configuration (models.rs `Client`;
the types.rs variant differs only in optional descriptive fields, none of
which any claim inspects). -/
structure Client where
  ip : String
  lat : String
  lon : String
  isp : String
  country : String
  isprating : String
  rating : String
  ispdlavg : String
  ispulavg : String
  loggedin : String
deriving DecidableEq, Repr

/-- Server record (models.rs `Server`): numeric coordinates, derived
distance `d` in km and measured `latency` in ms. -/
structure Server where
  id : Nat
  sponsor : String
  name : String
  country : String
  lat : ℚ
  lon : ℚ
  url : String
  d : ℚ
  latency : ℚ
deriving DecidableEq, Repr

/-- Per-direction size lists (models.rs `Sizes`). -/
structure Sizes where
  upload : List Nat
  download : List Nat
deriving DecidableEq, Repr

/-- Per-direction repetition counts (models.rs `Counts`). -/
structure Counts where
  upload : Nat
  download : Nat
deriving DecidableEq, Repr

/-- Per-direction thread counts (models.rs `Threads`). -/
structure Threads where
  upload : Nat
  download : Nat
deriving DecidableEq, Repr

/-- Per-direction time budgets in seconds (models.rs `Length`). -/
structure Length where
  upload : Nat
  download : Nat
deriving DecidableEq, Repr

/-- Test configuration (models.rs `Config`). -/
structure Config where
  client : Client
  ignore_servers : List Nat
  sizes : Sizes
  counts : Counts
  threads : Threads
  length : Length
  upload_max : Nat
deriving DecidableEq, Repr

/-- Server summary stored into the session results
(types.rs `ResultServer`). -/
structure ResultServer where
  id : Nat
  sponsor : String
  name : String
  country : String
  d : ℚ
  latency : ℚ
  url : String
deriving DecidableEq, Repr

/-- Session-held accumulated results (types.rs `SpeedtestResults`: the
variant holding a `ResultServer`, used as the `results` field of the
session by latency.rs / download.rs / upload.rs).  The wall-clock
`timestamp` string is carried opaquely. -/
structure SessionResults where
  download : ℚ
  upload : ℚ
  ping : ℚ
  server : ResultServer
  client : Client
  timestamp : String
  bytes_sent : Nat
  bytes_received : Nat
  share : Option String
deriving DecidableEq, Repr

/-- Final results value (models.rs `SpeedtestResults`: the variant holding a
full `Server`, returned by speedtest.rs `get_results`). -/
structure SpeedtestResults where
  download : ℚ
  upload : ℚ
  ping : ℚ
  server : Server
  timestamp : String
  bytes_received : Nat
  bytes_sent : Nat
  share : Option String
  client : Client
deriving DecidableEq, Repr

/-- models.rs `SpeedtestResults::new`.  `chrono::Utc::now().to_rfc3339()`
is a clock read, supplied here as the `now` argument. -/
def SpeedtestResults.new (now : String) (client : Client) (server : Server) :
    SpeedtestResults :=
  { download := 0
    upload := 0
    ping := 0
    server := server
    timestamp := now
    bytes_received := 0
    bytes_sent := 0
    share := none
    client := client }

/-- Error enum (error.rs `SpeedtestError`), restricted to the variants the
embedded functions construct.  speedtest.rs's stale
`BestServerFailure(String)` / `ConfigRetrieval(String)` spellings carry a
message; error.rs's checked-in enum does not, and the message is dropped
here.  `HttpError` stands for the wrapped `reqwest::Error`. -/
inductive SpeedtestError where
  | HttpError : SpeedtestError
  | ConfigRetrievalError : String → SpeedtestError
  | ServersRetrievalError : String → SpeedtestError
  | ConfigError : String → SpeedtestError
  | NoMatchedServers : SpeedtestError
  | BestServerFailure : SpeedtestError
  | MissingBestServer : SpeedtestError
deriving DecidableEq, Repr

/-- Decidable equality for `Except` results, used to evaluate the embedded
fallible functions on concrete fixtures. -/
instance {ε α : Type} [DecidableEq ε] [DecidableEq α] :
    DecidableEq (Except ε α) := fun a b =>
  match a, b with
  | .error e₁, .error e₂ =>
    if h : e₁ = e₂ then .isTrue (by rw [h])
    else .isFalse (fun hh => h (Except.error.inj hh))
  | .error _, .ok _ => .isFalse (fun hh => Except.noConfusion hh)
  | .ok _, .error _ => .isFalse (fun hh => Except.noConfusion hh)
  | .ok a₁, .ok a₂ =>
    if h : a₁ = a₂ then .isTrue (by rw [h])
    else .isFalse (fun hh => h (Except.ok.inj hh))

/-- Session state (`Speedtest` struct).  Merges the fields of the two
struct generations in the sources: `config`, `servers`, `closest`, `best`,
`lat_lon` from speedtest.rs, plus the `results` field that latency.rs,
download.rs and upload.rs mutate.  The HTTP client handle and the debug
flag are I/O glue and are omitted.  The `HashMap<u32, Vec<Server>>` server
catalog is embedded as an association list in iteration order. -/
structure Speedtest where
  config : Option Config
  servers : List (Nat × List Server)
  closest : List Server
  best : Option Server
  lat_lon : ℚ × ℚ
  results : SessionResults
deriving DecidableEq, Repr

/-- Outcome of one latency probe (one `http_client.get_text` call on the
`latency.txt` URL): a response whose trimmed body equals "test=test"
(success, with the observed round-trip time in seconds), a response with
any other body, or a transport error. -/
inductive ProbeResult where
  | success (elapsedSec : ℚ) : ProbeResult
  | badBody (elapsedSec : ℚ) : ProbeResult
  | transportError : ProbeResult
deriving DecidableEq, Repr

/-- The three sequential probes of one candidate server (`for i in 0..3`). -/
abbrev Probes3 := ProbeResult × ProbeResult × ProbeResult

/-- latency.rs `determine_best_server`, probe loop body: a matching body
pushes `elapsed.as_secs_f64()` (seconds), any other outcome pushes the
sentinel `3600.0` (seconds). -/
def probeSec : ProbeResult → ℚ
  | .success e => e
  | .badBody _ => 3600
  | .transportError => 3600

/-- latency.rs `determine_best_server`: the `cumulative` vector for one
server's three probes. -/
def cumulative (p : Probes3) : List ℚ :=
  [probeSec p.1, probeSec p.2.1, probeSec p.2.2]

/-- latency.rs `determine_best_server`, line 55:
`(cumulative.iter().sum::<f64>() / 6.0) * 1000.0`. -/
def serverAvgMs (p : Probes3) : ℚ :=
  ((cumulative p).sum / 6) * 1000

/-- speedtest.rs `measure_latency`, probe loop body: a matching body pushes
`start.elapsed().as_secs_f64() * 1000.0` (milliseconds), any other outcome
pushes the sentinel `3600.0` (milliseconds). -/
def probeMs : ProbeResult → ℚ
  | .success e => e * 1000
  | .badBody _ => 3600
  | .transportError => 3600

/-- Rust `f64::round`: nearest integer, ties away from zero.  Mathlib's
`round` rounds ties up, which agrees on non-negatives; negatives are
mirrored explicitly. -/
def f64round (x : ℚ) : ℚ :=
  if x < 0 then -(((round (-x) : ℤ) : ℚ)) else ((round x : ℤ) : ℚ)

/-- speedtest.rs `measure_latency` (lines 432-481), for one server's three
probe outcomes: fails with `BestServerFailure` when every recorded latency
is ≥ 3600.0 ms, otherwise returns the arithmetic mean of the three
outcomes rounded to 3 decimal places
(`(avg * 1000.0).round() / 1000.0`). -/
def measure_latency (p : Probes3) : Except SpeedtestError ℚ :=
  let latencies := [probeMs p.1, probeMs p.2.1, probeMs p.2.2]
  if latencies.all (fun l => decide (3600 ≤ l)) then
    .error .BestServerFailure
  else
    let avg := latencies.sum / (latencies.length : ℚ)
    .ok (f64round (avg * 1000) / 1000)

/-- latency.rs `determine_best_server` (lines 8-82).  The candidate list
(either the supplied `servers` or `self.closest`) arrives paired with the
three probe outcomes the HTTP transport produced for each candidate.
Every candidate is scored with `serverAvgMs`, the `(avg, server)` pairs
are sorted by average (Rust's `sort_by` is a stable sort, embedded as
Mathlib's stable `insertionSort`), and the head wins; its latency is
recorded into `results.ping` / `results.server` and into `best`.
`BestServerFailure` arises only from an empty candidate list (the second
`results.is_empty()` check in the source is unreachable otherwise and is
kept as the `[]` match arm). -/
def determine_best_server (st : Speedtest) (candidates : List (Server × Probes3)) :
    Except SpeedtestError (Speedtest × Server) :=
  if candidates.isEmpty then .error .BestServerFailure
  else
    let results := candidates.map (fun sp => (serverAvgMs sp.2, sp.1))
    match List.insertionSort (fun a b : ℚ × Server => a.1 ≤ b.1) results with
    | [] => .error .BestServerFailure
    | (latency, best) :: _ =>
      let best_server := { best with latency := latency }
      let rs : ResultServer :=
        { id := best_server.id, sponsor := best_server.sponsor,
          name := best_server.name, country := best_server.country,
          d := best_server.d, latency := best_server.latency,
          url := best_server.url }
      let st' := { st with
        results := { st.results with ping := latency, server := rs },
        best := some best_server }
      .ok (st', best_server)

/-- speedtest.rs `get_best_server`, ranking pass: candidates are probed
(concurrently via rayon, which preserves input order in the collected
vector) and `filter_map` drops every candidate whose `measure_latency`
failed. -/
def rankedResults (candidates : List (Server × Probes3)) : List (ℚ × Server) :=
  candidates.filterMap
    (fun sp => (measure_latency sp.2).toOption.map (fun l => (l, sp.1)))

/-- Rust `Iterator::min_by` on the `(latency, server)` pairs: the running
minimum is replaced only when a later element is strictly smaller, so the
first of several equal minima is returned. -/
def min_by (l : List (ℚ × Server)) : Option (ℚ × Server) :=
  l.foldl
    (fun acc y =>
      match acc with
      | none => some y
      | some x => if y.1 < x.1 then some y else some x)
    none

/-- speedtest.rs `get_best_server` (lines 388-418): rank the candidates,
take the minimum by latency (`BestServerFailure` when no candidate
survived ranking), store the winner with its measured latency into
`best`. -/
def get_best_server (st : Speedtest) (candidates : List (Server × Probes3)) :
    Except SpeedtestError (Speedtest × Server) :=
  match min_by (rankedResults candidates) with
  | none => .error .BestServerFailure
  | some ls =>
    let best_server := { ls.2 with latency := ls.1 }
    .ok ({ st with best := some best_server }, best_server)

/-- Candidate ordering used by `get_closest_servers`
(`a.d.partial_cmp(&b.d)`). -/
def serverLE (a b : Server) : Prop := a.d ≤ b.d

instance : DecidableRel serverLE := fun a b =>
  inferInstanceAs (Decidable (a.d ≤ b.d))

instance : IsTotal Server serverLE := ⟨fun a b => le_total a.d b.d⟩

instance : IsTrans Server serverLE := ⟨fun _ _ _ hab hbc => le_trans hab hbc⟩

/-- speedtest.rs `get_closest_servers` (lines 358-386), core computation:
flatten the catalog (`self.servers.values().flatten()`, the association
list in its iteration order), sort ascending by the distance field with
the stable `sort_by`, and keep the first `limit` entries.  The lazy
`get_servers` retry on an empty catalog is discovery glue handled in
`get_servers` itself. -/
def get_closest_servers (servers : List (Nat × List Server)) (limit : Nat) :
    List Server :=
  (List.insertionSort serverLE (servers.map Prod.snd).flatten).take limit

/-- One raw `<server .../>` record as it comes out of the XML attribute
map: each numeric attribute is the result of `attrs.get(..).and_then(parse)`,
so `none` stands for a missing or unparseable attribute. -/
structure RawServer where
  id_attr : Option Nat
  lat_attr : Option ℚ
  lon_attr : Option ℚ
  sponsor : String
  name : String
  country : String
  url : String
deriving DecidableEq, Repr

/-- `self.servers.entry(id).or_insert_with(Vec::new).push(server)`:
append to the existing bucket of `id`, or add a fresh bucket. -/
def insertServer : List (Nat × List Server) → Nat → Server → List (Nat × List Server)
  | [], id, s => [(id, [s])]
  | (k, v) :: rest, id, s =>
    if k = id then (k, v ++ [s]) :: rest else (k, v) :: insertServer rest id s

/-- speedtest.rs `fetch_servers`, loop body for one `<server>` record
(lines 294-339): `id` defaults to 0 on a missing/unparseable attribute and
an id of 0 skips the record; then the include filter, the configuration's
ignore list and the exclude filter each skip; finally lat/lon default to
0.0 on a missing/unparseable attribute (the record is kept), the distance
from the client location is computed and the server is inserted.
`dist` abstracts `utils::distance` (which is real-valued; no claim about
this function depends on the distance value). -/
def processRecord (dist : ℚ × ℚ → ℚ × ℚ → ℚ) (lat_lon : ℚ × ℚ) (cfg : Config)
    (server_ids : Option (List Nat)) (exclude : Option (List Nat))
    (m : List (Nat × List Server)) (r : RawServer) : List (Nat × List Server) :=
  let id := r.id_attr.getD 0
  if id = 0 then m
  else if server_ids.elim false (fun ids => decide (id ∉ ids)) then m
  else if decide (id ∈ cfg.ignore_servers) then m
  else if exclude.elim false (fun excl => decide (id ∈ excl)) then m
  else
    let lat := r.lat_attr.getD 0
    let lon := r.lon_attr.getD 0
    let d := dist lat_lon (lat, lon)
    insertServer m id
      { id := id, sponsor := r.sponsor, name := r.name, country := r.country,
        lat := lat, lon := lon, url := r.url, d := d, latency := 0 }

/-- What one `fetch_servers` call observes from the outside world for its
URL: a transport failure of `get_text`, or the stream of `<server>`
records quick-xml produced, with `parseError` true when the reader hit an
XML error after those records. -/
inductive BatchResult where
  | transportError : BatchResult
  | records (rs : List RawServer) (parseError : Bool) : BatchResult
deriving DecidableEq, Repr

/-- speedtest.rs `fetch_servers` (lines 258-356), for one URL.  The order
of failure checks follows the source: `get_text` first, then the
config-loaded check, then parsing.  Records are folded into the catalog
as they are parsed, so on a late XML error the records inserted before it
remain (the function returns the new catalog together with the optional
error, mirroring `&mut self` plus `Result<()>`). -/
def fetch_servers (dist : ℚ × ℚ → ℚ × ℚ → ℚ) (config : Option Config)
    (lat_lon : ℚ × ℚ) (server_ids : Option (List Nat))
    (exclude : Option (List Nat)) (batch : BatchResult)
    (m : List (Nat × List Server)) :
    List (Nat × List Server) × Option SpeedtestError :=
  match batch with
  | .transportError => (m, some .HttpError)
  | .records rs parseError =>
    match config with
    | none => (m, some (.ConfigRetrievalError "Config not loaded"))
    | some cfg =>
      let m' := rs.foldl (processRecord dist lat_lon cfg server_ids exclude) m
      if parseError then (m', some (.ServersRetrievalError "XML parse error"))
      else (m', none)

/-- speedtest.rs `get_servers`, URL fallback loop (lines 223-246): stop at
the first URL that succeeds with a non-empty catalog; an `Ok` with an
empty catalog and an `Err` both move on to the next URL, keeping whatever
was inserted so far. -/
def get_servers_loop (dist : ℚ × ℚ → ℚ × ℚ → ℚ) (config : Option Config)
    (lat_lon : ℚ × ℚ) (server_ids : Option (List Nat))
    (exclude : Option (List Nat)) :
    List BatchResult → List (Nat × List Server) → List (Nat × List Server)
  | [], m => m
  | b :: rest, m =>
    match fetch_servers dist config lat_lon server_ids exclude b m with
    | (m', none) =>
      if m'.isEmpty then get_servers_loop dist config lat_lon server_ids exclude rest m'
      else m'
    | (m', some _) => get_servers_loop dist config lat_lon server_ids exclude rest m'

/-- speedtest.rs `get_servers` (lines 209-256): clear the catalog, run the
URL fallback loop (`batches` lists what the transport returns for the four
hard-coded URLs in order), then fail with `NoMatchedServers` exactly when
an include or exclude filter was supplied and the catalog came out
empty. -/
def get_servers (dist : ℚ × ℚ → ℚ × ℚ → ℚ) (config : Option Config)
    (lat_lon : ℚ × ℚ) (server_ids : Option (List Nat))
    (exclude : Option (List Nat)) (batches : List BatchResult) :
    Except SpeedtestError (List (Nat × List Server)) :=
  let m := get_servers_loop dist config lat_lon server_ids exclude batches []
  if (server_ids.isSome || exclude.isSome) && m.isEmpty then
    .error .NoMatchedServers
  else
    .ok m

/-- upload.rs `generate_upload_data_static`, the 36-character alphabet
`b"0123456789ABCDEFGHIJKLMNOPQRSTUVWXYZ"` (payload bytes are modelled as
characters). -/
def uploadChars : List Char := "0123456789ABCDEFGHIJKLMNOPQRSTUVWXYZ".data

/-- The fixed field marker `b"content1="` (9 bytes). -/
def uploadMarker : List Char := "content1=".data

/-- upload.rs `generate_upload_data_static`:
`((length as f64) / 36.0).round() as usize`. -/
def multiplier (length : Nat) : Nat :=
  (round ((length : ℚ) / 36)).toNat

/-- The first `n` elements of `p` cycled
(`CHARS.iter().cycle().take(n)`); since a cycled list repeats, `n` copies
of `p` always suffice. -/
def cycleTake (p : List Char) (n : Nat) : List Char :=
  (List.replicate n p).flatten.take n

/-- upload.rs `generate_upload_data_static`, the `pattern` vector:
the first `multiplier` characters of the cycled alphabet. -/
def uploadPattern (length : Nat) : List Char :=
  cycleTake uploadChars (multiplier length)

/-- upload.rs `generate_upload_data_static`, the `while data.len() < length`
loop.  Each pass computes `remaining = content_length - (data.len() - 9)`
(usize arithmetic: `Nat` subtraction), takes
`chunk_size = remaining.min(pattern.len())` characters from the start of
`pattern` and appends them.  When `pattern` is empty the loop makes no
progress and the Rust code diverges; the embedding makes this explicit by
running on fuel and returning `none` on exhaustion. -/
def uploadLoop : Nat → List Char → Nat → Nat → List Char → Option (List Char)
  | 0, _, _, _, _ => none
  | fuel + 1, pattern, contentLength, length, data =>
    if data.length < length then
      let remaining := contentLength - (data.length - 9)
      let chunkSize := min remaining pattern.length
      uploadLoop fuel pattern contentLength length (data ++ pattern.take chunkSize)
    else some data

/-- upload.rs `generate_upload_data_static` (lines 110-132):
`content_length = length.saturating_sub(9)`, data starts as the marker,
the fill loop runs, and `data.truncate(length)` trims the result.  The
fuel `length + 1` is an upper bound on the iterations of any terminating
run (every productive pass appends at least one character), so `none`
appears exactly when the Rust loop diverges. -/
def generate_upload_data_static (length : Nat) : Option (List Char) :=
  (uploadLoop (length + 1) (uploadPattern length) (length - 9) length
      uploadMarker).map
    (fun data => data.take length)

/-- speedtest.rs `upload` (lines 598-607), the inline payload generator of
the stale speedtest.rs generation:
`content = chars.repeat(multiplier)` (the full alphabet repeated), then
`data = format!("content1={}", &content[..size.min(content.len()) - 9])`.
The usize subtraction `min(size, content.len()) - 9` underflows (a panic
in debug builds, an out-of-bounds slice after wrapping in release builds)
when `min(size, content.len()) < 9`; the embedding returns `none` for
that case. -/
def generate_upload_data_inline (size : Nat) : Option (List Char) :=
  let content := (List.replicate (multiplier size) uploadChars).flatten
  if min size content.length < 9 then none
  else some (uploadMarker ++ content.take (min size content.length - 9))

/-- Rust `f64::to_radians`: `self * (PI / 180.0)`. -/
noncomputable def toRadians (x : ℝ) : ℝ := x * (Real.pi / 180)

/-- Rust `f64::atan2(self = y, other = x)`, the four-quadrant arctangent
on the real model (the NaN and signed-zero cases of IEEE 754 have no
counterpart in `ℝ`). -/
noncomputable def atan2 (y x : ℝ) : ℝ :=
  if 0 < x then Real.arctan (y / x)
  else if x < 0 then
    (if 0 ≤ y then Real.arctan (y / x) + Real.pi
     else Real.arctan (y / x) - Real.pi)
  else
    (if 0 < y then Real.pi / 2
     else if y < 0 then -(Real.pi / 2)
     else 0)

/-- utils.rs `distance` (lines 2-15): great-circle haversine distance in
km between two `(lat, lon)` degree pairs, with Earth radius 6371 km. -/
noncomputable def distance (origin destination : ℝ × ℝ) : ℝ :=
  let lat1 := origin.1
  let lon1 := origin.2
  let lat2 := destination.1
  let lon2 := destination.2
  let radius : ℝ := 6371
  let dlat := toRadians (lat2 - lat1)
  let dlon := toRadians (lon2 - lon1)
  let a := Real.sin (dlat / 2) ^ 2 +
    Real.cos (toRadians lat1) * Real.cos (toRadians lat2) * Real.sin (dlon / 2) ^ 2
  let c := 2 * atan2 (Real.sqrt a) (Real.sqrt (1 - a))
  radius * c

/-- What one time-boxed concurrent throughput run observes: the shared
byte counter after the join, the elapsed wall-clock seconds, and how many
HTTP requests the workers issued.  The engine itself (thread pool, stop
flag, per-request outcomes) is real-time concurrency and is abstracted
into this record; the claims settled here concern only the precondition
checks that run before it. -/
structure EngineOutcome where
  bytes : Nat
  elapsed : ℚ
  requests : Nat
deriving DecidableEq, Repr

/-- download.rs `test_download` (lines 12-90): the config-loaded check
(`ConfigError "Config not loaded"`), then the best-server check
(`MissingBestServer`), in that order, both before any request is built or
issued; on success the engine runs, `results.bytes_received` and
`results.download` are written and the speed `(bytes / elapsed) * 8` is
returned, with the upload thread count raised to 8 when the speed exceeds
100000 bits/s.  The returned triple is (result, new state, number of HTTP
requests issued). -/
def test_download (run : EngineOutcome) (st : Speedtest) :
    Except SpeedtestError ℚ × Speedtest × Nat :=
  match st.config with
  | none => (.error (.ConfigError "Config not loaded"), st, 0)
  | some config =>
    match st.best with
    | none => (.error .MissingBestServer, st, 0)
    | some _ =>
      let speed := ((run.bytes : ℚ) / run.elapsed) * 8
      let results' := { st.results with
        bytes_received := run.bytes, download := speed }
      let config' :=
        if 100000 < speed then
          { config with threads := { config.threads with upload := 8 } }
        else config
      (.ok speed, { st with results := results', config := some config' },
        run.requests)

/-- upload.rs `test_upload` (lines 11-101): the same two precondition
checks in the same order as `test_download`, both before any payload is
generated or request issued; on success the engine runs and
`results.bytes_sent` / `results.upload` are written. -/
def test_upload (run : EngineOutcome) (st : Speedtest) :
    Except SpeedtestError ℚ × Speedtest × Nat :=
  match st.config with
  | none => (.error (.ConfigError "Config not loaded"), st, 0)
  | some _ =>
    match st.best with
    | none => (.error .MissingBestServer, st, 0)
    | some _ =>
      let speed := ((run.bytes : ℚ) / run.elapsed) * 8
      let results' := { st.results with
        bytes_sent := run.bytes, upload := speed }
      (.ok speed, { st with results := results' }, run.requests)

/-- speedtest.rs `get_results` (lines 657-665): `self.config.as_ref()?`,
`self.best.as_ref()?`, then build a fresh `SpeedtestResults`. -/
def get_results (now : String) (st : Speedtest) : Option SpeedtestResults := do
  let config ← st.config
  let server ← st.best
  some (SpeedtestResults.new now config.client server)

/-- Empty client fixture for concrete evaluations. -/
def client0 : Client :=
  { ip := "", lat := "", lon := "", isp := "", country := "", isprating := "",
    rating := "", ispdlavg := "", ispulavg := "", loggedin := "" }

/-- Zeroed result-server fixture. -/
def resultServer0 : ResultServer :=
  { id := 0, sponsor := "", name := "", country := "", d := 0, latency := 0,
    url := "" }

/-- Fresh session results fixture. -/
def sessionResults0 : SessionResults :=
  { download := 0, upload := 0, ping := 0, server := resultServer0,
    client := client0, timestamp := "", bytes_sent := 0, bytes_received := 0,
    share := none }

/-- Minimal loaded configuration fixture (empty ignore list). -/
def cfg0 : Config :=
  { client := client0, ignore_servers := [],
    sizes := { upload := [], download := [] },
    counts := { upload := 0, download := 0 },
    threads := { upload := 0, download := 0 },
    length := { upload := 0, download := 0 }, upload_max := 0 }

/-- Session fixture with a loaded configuration and no best server. -/
def st0 : Speedtest :=
  { config := some cfg0, servers := [], closest := [], best := none,
    lat_lon := (0, 0), results := sessionResults0 }

/-- Session fixture with no configuration loaded. -/
def stNoConfig : Speedtest := { st0 with config := none }

/-- Concrete candidate server fixture. -/
def server0 : Server :=
  { id := 1, sponsor := "sp1", name := "n1", country := "c1", lat := 0,
    lon := 0, url := "http://one.example/speedtest/upload.php", d := 0,
    latency := 0 }

/-- Second candidate server fixture. -/
def server1 : Server :=
  { id := 2, sponsor := "sp2", name := "n2", country := "c2", lat := 0,
    lon := 0, url := "http://two.example/speedtest/upload.php", d := 0,
    latency := 0 }

/-- Three probe outcomes that all failed at the transport. -/
def allFailProbes : Probes3 :=
  (.transportError, .transportError, .transportError)

/-- Distance oracle fixture (claims about the catalog do not depend on the
distance value). -/
def dist0 : ℚ × ℚ → ℚ × ℚ → ℚ := fun _ _ => 0

/-- Raw record fixture with id 5, well-formed coordinates. -/
def raw5 : RawServer :=
  { id_attr := some 5, lat_attr := some 1, lon_attr := some 2,
    sponsor := "sp5", name := "n5", country := "c5", url := "u5" }

/-- Raw record fixture with id 7, well-formed coordinates. -/
def raw7 : RawServer :=
  { id_attr := some 7, lat_attr := some 3, lon_attr := some 4,
    sponsor := "sp7", name := "n7", country := "c7", url := "u7" }

/-- Raw record fixture with id 7 and an unparseable `lat` attribute. -/
def rawBadLat : RawServer :=
  { id_attr := some 7, lat_attr := none, lon_attr := some 2,
    sponsor := "sp7", name := "n7", country := "c7", url := "u7" }

/-- The server that `processRecord` builds from `raw5` under `dist0`. -/
def srv5 : Server :=
  { id := 5, sponsor := "sp5", name := "n5", country := "c5", lat := 1,
    lon := 2, url := "u5", d := 0, latency := 0 }

/-- The server that `processRecord` builds from `rawBadLat` under `dist0`:
the malformed latitude has been defaulted to 0.0. -/
def srvBad : Server :=
  { id := 7, sponsor := "sp7", name := "n7", country := "c7", lat := 0,
    lon := 2, url := "u7", d := 0, latency := 0 }

/-- A server-list download whose batch contains exactly the records with
ids 5 and 7. -/
def batch57 : BatchResult := .records [raw5, raw7] false

/-- Engine outcome fixture (irrelevant to the precondition claims). -/
def run0 : EngineOutcome := { bytes := 0, elapsed := 1, requests := 0 }

/-- Raw record fixture whose `id` attribute is missing or unparseable. -/
def rawNoId : RawServer :=
  { id_attr := none, lat_attr := some 1, lon_attr := some 2,
    sponsor := "spx", name := "nx", country := "cx", url := "ux" }

/-- A probe whose HTTP exchange failed (non-matching body or transport
error), i.e. any outcome other than `success`. -/
def probeFailed : ProbeResult → Bool
  | .success _ => false
  | .badBody _ => true
  | .transportError => true

/-- Probe fixture: three clean 15 ms probes. -/
def probes15 : Probes3 := (.success 0.015, .success 0.015, .success 0.015)

/-- Probe fixture: three clean 22 ms probes. -/
def probes22 : Probes3 := (.success 0.022, .success 0.022, .success 0.022)

/-- C10: querying the session for its results returns `none` exactly when
the configuration or the best server is missing, and returns a value
exactly when both are present. -/
theorem get_results_none_iff (now : String) (st : Speedtest) :
    (get_results now st = none ↔ (st.config = none ∨ st.best = none)) ∧
    ((get_results now st).isSome ↔ (st.config.isSome ∧ st.best.isSome)) := by
  cases hc : st.config <;> cases hb : st.best <;>
    simp [get_results, hc, hb]

/-- C9: invoking `test_download` or `test_upload` with no configuration
loaded fails immediately with the configuration-not-loaded error, and
invoking them with a configuration but no best server fails immediately
with `MissingBestServer`; in every such case the session state is
returned unchanged and zero HTTP requests are issued.  (The source checks
the configuration first, so the configuration error takes precedence when
both are missing.) -/
theorem measure_preconditions (run : EngineOutcome) (st : Speedtest) :
    (st.config = none →
      test_download run st = (.error (.ConfigError "Config not loaded"), st, 0) ∧
      test_upload run st = (.error (.ConfigError "Config not loaded"), st, 0)) ∧
    (∀ c, st.config = some c → st.best = none →
      test_download run st = (.error .MissingBestServer, st, 0) ∧
      test_upload run st = (.error .MissingBestServer, st, 0)) := by
  constructor
  · intro h
    constructor <;> simp [test_download, test_upload, h]
  · intro c hc hb
    constructor <;> simp [test_download, test_upload, hc, hb]

/-- Witness for `measure_preconditions` at the concrete sessions
`stNoConfig` and `st0`. -/
theorem measure_preconditions_witness :
    (stNoConfig.config = none ∧
      test_download run0 stNoConfig =
        (.error (.ConfigError "Config not loaded"), stNoConfig, 0)) ∧
    (st0.config = some cfg0 ∧ st0.best = none ∧
      test_download run0 st0 = (.error .MissingBestServer, st0, 0) ∧
      test_upload run0 st0 = (.error .MissingBestServer, st0, 0)) :=
  ⟨⟨rfl, ((measure_preconditions run0 stNoConfig).1 rfl).1⟩,
    rfl, rfl, ((measure_preconditions run0 st0).2 cfg0 rfl rfl).1,
    ((measure_preconditions run0 st0).2 cfg0 rfl rfl).2⟩

/-- C5: the computed closest-server list is sorted non-decreasing by the
distance field, and its length is the minimum of the requested limit and
the number of servers in the catalog. -/
theorem closest_servers_sorted_length (servers : List (Nat × List Server))
    (limit : Nat) :
    ((get_closest_servers servers limit).map Server.d).Sorted (· ≤ ·) ∧
    (get_closest_servers servers limit).length =
      min limit ((servers.map (fun kv => kv.2.length)).sum) := by
  constructor
  · have hs : List.Sorted serverLE
        (List.insertionSort serverLE (servers.map Prod.snd).flatten) :=
      List.sorted_insertionSort serverLE _
    have ht : List.Sorted serverLE (get_closest_servers servers limit) :=
      List.Pairwise.sublist (List.take_sublist _ _) hs
    exact List.pairwise_map.mpr ht
  · rw [get_closest_servers, List.length_take, List.length_insertionSort,
      List.length_flatten, List.map_map]
    rfl

/-- C1 counterexample: for probes of 10 ms, 12 ms and one transport
failure, neither selector path reports the claimed arithmetic mean
(10 + 12 + 3600000) / 3 ms: `determine_best_server`'s score is
(10 + 12 + 3600000) / 6 = 1800011/3 ms (it divides the probe sum by 6),
and `measure_latency` reports (10 + 12 + 3600) / 3 ms rounded (its failure
sentinel is 3600 ms, not 3600000 ms). -/
theorem latency_average_claim_counterexample :
    serverAvgMs (.success 0.01, .success 0.012, .transportError) ≠
      (10 + 12 + 3600000) / 3 ∧
    (measure_latency (.success 0.01, .success 0.012, .transportError)).toOption ≠
      some ((10 + 12 + 3600000) / 3) ∧
    serverAvgMs (.success 0.01, .success 0.012, .transportError) = 1800011 / 3 ∧
    (measure_latency (.success 0.01, .success 0.012, .transportError)).toOption =
      some (1207333 / 1000) := by
  refine ⟨?_, ?_, ?_, ?_⟩ <;>
    norm_num [serverAvgMs, cumulative, probeSec, measure_latency, probeMs,
      List.all_cons, List.all_nil, f64round, round_eq, Except.toOption]

/-- C1 amended: in `determine_best_server`, a successful probe contributes
its round-trip time in ms and a failed probe contributes 3600000 ms, but
the reported score is the sum of the three outcomes divided by 6 (half
the arithmetic mean); in `measure_latency`, the reported latency is the
arithmetic mean of the three outcomes rounded to 3 decimal places, but a
failed probe contributes only 3600 ms. -/
theorem latency_average_amended (o1 o2 o3 : ProbeResult) :
    serverAvgMs (o1, o2, o3) =
      (probeSec o1 * 1000 + probeSec o2 * 1000 + probeSec o3 * 1000) / 6 ∧
    (¬ (3600 ≤ probeMs o1 ∧ 3600 ≤ probeMs o2 ∧ 3600 ≤ probeMs o3) →
      measure_latency (o1, o2, o3) =
        .ok (f64round (((probeMs o1 + probeMs o2 + probeMs o3) / 3) * 1000) /
          1000)) := by
  constructor
  · simp only [serverAvgMs, cumulative, List.sum_cons, List.sum_nil]
    ring
  · intro h
    have hcond : ([probeMs o1, probeMs o2, probeMs o3].all
        (fun l => decide (3600 ≤ l))) ≠ true := by
      intro hc
      simp only [List.all_cons, List.all_nil, Bool.and_true, Bool.and_eq_true,
        decide_eq_true_eq] at hc
      exact h ⟨hc.1, hc.2.1, hc.2.2⟩
    simp only [measure_latency]
    rw [if_neg hcond]
    norm_num [List.sum_cons, List.sum_nil]
    rw [← add_assoc]

/-- Witness for `latency_average_amended` at probes of 10 ms, 12 ms and a
transport failure. -/
theorem latency_average_amended_witness :
    ¬ (3600 ≤ probeMs (.success 0.01) ∧ 3600 ≤ probeMs (.success 0.012) ∧
        3600 ≤ probeMs .transportError) ∧
    measure_latency (.success 0.01, .success 0.012, .transportError) =
      .ok (f64round (((probeMs (.success 0.01) + probeMs (.success 0.012) +
        probeMs .transportError) / 3) * 1000) / 1000) :=
  ⟨by norm_num [probeMs],
    (latency_average_amended (.success 0.01) (.success 0.012)
      .transportError).2 (by norm_num [probeMs])⟩

/-- C2 counterexample: a single candidate whose three probes all failed is
not excluded by `determine_best_server` and selection does not fail with
`BestServerFailure`; the candidate is returned as the best server with
the penalty score 1800000 ms. -/
theorem all_failed_exclusion_counterexample :
    ((determine_best_server st0 [(server0, allFailProbes)]).toOption.map
      (fun r => r.2.latency)) = some 1800000 ∧
    (determine_best_server st0 [(server0, allFailProbes)]).toOption ≠ none := by
  have havg : serverAvgMs allFailProbes = 1800000 := by
    norm_num [serverAvgMs, cumulative, probeSec, allFailProbes]
  constructor <;>
    simp [determine_best_server, havg, List.insertionSort, List.orderedInsert,
      Except.toOption]

/-- Helper: `measure_latency` rejects a candidate when all three probes
failed (every recorded latency is the 3600 ms sentinel). -/
theorem measure_latency_all_failed (a b c : ProbeResult)
    (ha : probeFailed a = true) (hb : probeFailed b = true)
    (hc : probeFailed c = true) :
    measure_latency (a, b, c) = .error .BestServerFailure := by
  have hA : probeMs a = 3600 := by
    cases a with
    | success e => exact absurd ha (by simp [probeFailed])
    | badBody e => rfl
    | transportError => rfl
  have hB : probeMs b = 3600 := by
    cases b with
    | success e => exact absurd hb (by simp [probeFailed])
    | badBody e => rfl
    | transportError => rfl
  have hC : probeMs c = 3600 := by
    cases c with
    | success e => exact absurd hc (by simp [probeFailed])
    | badBody e => rfl
    | transportError => rfl
  norm_num [measure_latency, hA, hB, hC, List.all_cons, List.all_nil]

/-- C2 amended: in the `get_best_server` path, a candidate whose three
probes all failed is dropped from the ranking by `measure_latency`'s
all-outcomes-≥-3600 check, and when every candidate is dropped this way
the selection fails with `BestServerFailure` (whereas
`determine_best_server` merely penalizes such a candidate and fails only
on an empty candidate list). -/
theorem all_failed_exclusion_amended (st : Speedtest) (s : Server)
    (p : Probes3) (candidates : List (Server × Probes3)) :
    ((probeFailed p.1 = true ∧ probeFailed p.2.1 = true ∧
        probeFailed p.2.2 = true) →
      rankedResults ((s, p) :: candidates) = rankedResults candidates) ∧
    ((∀ sp ∈ candidates, probeFailed sp.2.1 = true ∧
        probeFailed sp.2.2.1 = true ∧ probeFailed sp.2.2.2 = true) →
      get_best_server st candidates = .error .BestServerFailure) := by
  constructor
  · rintro ⟨h1, h2, h3⟩
    obtain ⟨p1, p2, p3⟩ := p
    have hml := measure_latency_all_failed p1 p2 p3 h1 h2 h3
    simp [rankedResults, List.filterMap_cons, hml, Except.toOption]
  · intro h
    have hranked : rankedResults candidates = [] := by
      induction candidates with
      | nil => rfl
      | cons hd tl ih =>
        obtain ⟨s', p1, p2, p3⟩ := hd
        obtain ⟨hh1, hh2, hh3⟩ := h (s', p1, p2, p3) (by simp)
        have hml := measure_latency_all_failed p1 p2 p3 hh1 hh2 hh3
        have htl := ih (fun sp hsp => h sp (by simp [hsp]))
        simpa [rankedResults, List.filterMap_cons, hml, Except.toOption]
          using htl
    simp [get_best_server, hranked, min_by]

/-- Witness for `all_failed_exclusion_amended` at a single concrete
candidate whose probes all failed at the transport. -/
theorem all_failed_exclusion_amended_witness :
    rankedResults [(server0, allFailProbes)] = rankedResults [] ∧
    get_best_server st0 [(server0, allFailProbes)] =
      .error .BestServerFailure :=
  ⟨(all_failed_exclusion_amended st0 server0 allFailProbes []).1
      ⟨rfl, rfl, rfl⟩,
    (all_failed_exclusion_amended st0 server0 allFailProbes
        [(server0, allFailProbes)]).2
      (by
        intro sp hsp
        rw [List.mem_singleton] at hsp
        subst hsp
        exact ⟨rfl, rfl, rfl⟩)⟩

/-- Helper: the fold underlying `min_by` keeps the incumbent on ties and
replaces it only on a strictly smaller latency. -/
theorem min_by_cons_cons (x y : ℚ × Server) (l : List (ℚ × Server)) :
    min_by (x :: y :: l) = min_by ((if y.1 < x.1 then y else x) :: l) := by
  by_cases h : y.1 < x.1 <;> simp [min_by, h]

/-- Helper: `min_by` returns the first element attaining the minimum
latency: the list splits around the returned element, everything before
it is strictly larger, and nothing anywhere is smaller. -/
theorem min_by_first_min :
    ∀ (l : List (ℚ × Server)) (x : ℚ × Server),
      ∃ z pre suf,
        min_by (x :: l) = some z ∧
        x :: l = pre ++ z :: suf ∧
        (∀ y ∈ pre, z.1 < y.1) ∧
        (∀ y ∈ x :: l, z.1 ≤ y.1)
  | [], x => ⟨x, [], [], rfl, rfl, by simp, by simp⟩
  | y :: l, x => by
    rw [min_by_cons_cons]
    by_cases h : y.1 < x.1
    · rw [if_pos h]
      obtain ⟨z, pre, suf, hmin, hsplit, hpre, hall⟩ := min_by_first_min l y
      have hzy : z.1 ≤ y.1 := hall y (by simp)
      cases pre with
      | nil =>
        simp only [List.nil_append] at hsplit
        refine ⟨z, [x], suf, hmin, ?_, ?_, ?_⟩
        · rw [← hsplit]
          rfl
        · intro w hw
          rw [List.mem_singleton] at hw
          subst hw
          exact lt_of_le_of_lt hzy h
        · intro w hw
          rw [List.mem_cons] at hw
          rcases hw with rfl | hw
          · exact le_of_lt (lt_of_le_of_lt hzy h)
          · exact hall w hw
      | cons a pre2 =>
        rw [List.cons_append] at hsplit
        injection hsplit with ha hl
        subst ha
        refine ⟨z, x :: y :: pre2, suf, hmin, ?_, ?_, ?_⟩
        · rw [hl]
          rfl
        · intro w hw
          rw [List.mem_cons] at hw
          rcases hw with rfl | hw
          · exact lt_trans (hpre y (by simp)) h
          · rw [List.mem_cons] at hw
            rcases hw with rfl | hw
            · exact hpre w (by simp)
            · exact hpre w (by simp [hw])
        · intro w hw
          rw [List.mem_cons] at hw
          rcases hw with rfl | hw
          · exact le_of_lt (lt_of_le_of_lt hzy h)
          · exact hall w hw
    · rw [if_neg h]
      obtain ⟨z, pre, suf, hmin, hsplit, hpre, hall⟩ := min_by_first_min l x
      have hxy : x.1 ≤ y.1 := le_of_not_lt h
      have hzx : z.1 ≤ x.1 := hall x (by simp)
      cases pre with
      | nil =>
        simp only [List.nil_append] at hsplit
        injection hsplit with hz hsuf
        refine ⟨z, [], y :: suf, hmin, ?_, by simp, ?_⟩
        · rw [List.nil_append, ← hz, ← hsuf]
        · intro w hw
          rw [List.mem_cons] at hw
          rcases hw with rfl | hw
          · exact hzx
          · rw [List.mem_cons] at hw
            rcases hw with rfl | hw
            · exact le_trans hzx hxy
            · exact hall w (by simp [hw])
      | cons a pre2 =>
        rw [List.cons_append] at hsplit
        injection hsplit with ha hl
        subst ha
        refine ⟨z, x :: y :: pre2, suf, hmin, ?_, ?_, ?_⟩
        · rw [hl]
          rfl
        · intro w hw
          rw [List.mem_cons] at hw
          rcases hw with rfl | hw
          · exact hpre w (by simp)
          · rw [List.mem_cons] at hw
            rcases hw with rfl | hw
            · exact lt_of_lt_of_le (hpre x (by simp)) hxy
            · exact hpre w (by simp [hw])
        · intro w hw
          rw [List.mem_cons] at hw
          rcases hw with rfl | hw
          · exact hzx
          · rw [List.mem_cons] at hw
            rcases hw with rfl | hw
            · exact le_trans hzx hxy
            · exact hall w (by simp [hw])

/-- C3: for a non-empty ranked candidate list, `get_best_server` returns
the candidate whose measured mean latency is minimal, and on ties the one
earliest in input order (everything before the winner in the ranked list
is strictly slower). -/
theorem best_server_min_latency (st : Speedtest)
    (candidates : List (Server × Probes3))
    (h : rankedResults candidates ≠ []) :
    ∃ z pre suf,
      min_by (rankedResults candidates) = some z ∧
      get_best_server st candidates =
        .ok ({ st with best := some { z.2 with latency := z.1 } },
          { z.2 with latency := z.1 }) ∧
      rankedResults candidates = pre ++ z :: suf ∧
      (∀ y ∈ pre, z.1 < y.1) ∧
      (∀ y ∈ rankedResults candidates, z.1 ≤ y.1) := by
  obtain ⟨x, rest, hr⟩ := List.exists_cons_of_ne_nil h
  obtain ⟨z, pre, suf, hmin, hsplit, hpre, hall⟩ := min_by_first_min rest x
  rw [← hr] at hmin hsplit hall
  refine ⟨z, pre, suf, hmin, ?_, hsplit, hpre, hall⟩
  simp [get_best_server, hmin]

/-- Witness for `best_server_min_latency` at two concrete candidates with
mean latencies 15 ms and 22 ms. -/
theorem best_server_min_latency_witness :
    rankedResults [(server0, probes15), (server1, probes22)] ≠ [] ∧
    (∃ z pre suf,
      min_by (rankedResults [(server0, probes15), (server1, probes22)]) =
        some z ∧
      get_best_server st0 [(server0, probes15), (server1, probes22)] =
        .ok ({ st0 with best := some { z.2 with latency := z.1 } },
          { z.2 with latency := z.1 }) ∧
      rankedResults [(server0, probes15), (server1, probes22)] =
        pre ++ z :: suf ∧
      (∀ y ∈ pre, z.1 < y.1) ∧
      (∀ y ∈ rankedResults [(server0, probes15), (server1, probes22)],
        z.1 ≤ y.1)) := by
  have h15 : measure_latency probes15 = .ok 15 := by
    norm_num [measure_latency, probes15, probeMs, List.all_cons, List.all_nil,
      f64round, round_eq]
  have h22 : measure_latency probes22 = .ok 22 := by
    norm_num [measure_latency, probes22, probeMs, List.all_cons, List.all_nil,
      f64round, round_eq]
  have hne : rankedResults [(server0, probes15), (server1, probes22)] ≠ [] := by
    simp [rankedResults, List.filterMap_cons, h15, h22, Except.toOption]
  exact ⟨hne, best_server_min_latency st0 _ hne⟩

/-- Helper: `cycleTake` of a non-empty list has exactly `n` elements. -/
theorem length_cycleTake (p : List Char) (hp : 1 ≤ p.length) (n : Nat) :
    (cycleTake p n).length = n := by
  rw [cycleTake, List.length_take, List.length_flatten, List.map_replicate,
    List.sum_replicate, smul_eq_mul]
  exact min_eq_left (Nat.le_mul_of_pos_right n hp)

/-- Helper: within one period, `cycleTake` is a prefix of the pattern. -/
theorem cycleTake_of_le (p : List Char) {n : Nat} (hn : n ≤ p.length) :
    cycleTake p n = p.take n := by
  cases n with
  | zero => simp [cycleTake]
  | succ m =>
    rw [cycleTake, List.replicate_succ, List.flatten_cons,
      List.take_append_eq_append_take, Nat.sub_eq_zero_of_le hn,
      List.take_zero, List.append_nil]

/-- Helper: taking `n ≤ j` elements from `j` copies of a non-empty pattern
is `cycleTake p n`. -/
theorem flatten_replicate_take (p : List Char) (hp : 1 ≤ p.length)
    {j n : Nat} (hn : n ≤ j) :
    (List.replicate j p).flatten.take n = cycleTake p n := by
  have hj : j = n + (j - n) := by omega
  rw [cycleTake]
  conv_lhs => rw [hj]
  rw [List.replicate_add, List.flatten_append, List.take_append_eq_append_take]
  have hlen : n ≤ (List.replicate n p).flatten.length := by
    rw [List.length_flatten, List.map_replicate, List.sum_replicate,
      smul_eq_mul]
    exact Nat.le_mul_of_pos_right n hp
  rw [Nat.sub_eq_zero_of_le hlen, List.take_zero, List.append_nil]

/-- Helper: taking `n` characters from `j` copies of a pattern is
`cycleTake p n` whenever the copies hold at least `n` characters in
total. -/
theorem take_flatten_replicate (p : List Char) {j n : Nat}
    (hn : n ≤ j * p.length) :
    (List.replicate j p).flatten.take n = cycleTake p n := by
  rcases Nat.eq_zero_or_pos n with rfl | hn1
  · simp [cycleTake]
  have hp : 1 ≤ p.length := by
    by_contra h
    have hzero : p.length = 0 := by omega
    rw [hzero, Nat.mul_zero] at hn
    omega
  have key : ∀ i₁ i₂ : Nat, i₁ ≤ i₂ → n ≤ i₁ * p.length →
      (List.replicate i₂ p).flatten.take n =
        (List.replicate i₁ p).flatten.take n := by
    intro i₁ i₂ h12 hle
    have hsplit : i₂ = i₁ + (i₂ - i₁) := by omega
    conv_lhs => rw [hsplit]
    rw [List.replicate_add, List.flatten_append,
      List.take_append_eq_append_take]
    have hlen : n ≤ (List.replicate i₁ p).flatten.length := by
      rw [List.length_flatten, List.map_replicate, List.sum_replicate,
        smul_eq_mul]
      exact hle
    rw [Nat.sub_eq_zero_of_le hlen, List.take_zero, List.append_nil]
  rcases le_total j n with hjn | hnj
  · rw [cycleTake, key j n hjn hn]
  · rw [cycleTake]
    exact key n j hnj (Nat.le_mul_of_pos_right n hp)

/-- Helper: beyond one period, `cycleTake` starts with a full pattern. -/
theorem cycleTake_append_of_le (p : List Char) (hp : 1 ≤ p.length) {n : Nat}
    (hn : p.length ≤ n) :
    cycleTake p n = p ++ cycleTake p (n - p.length) := by
  obtain ⟨m, rfl⟩ : ∃ m, n = m + 1 :=
    ⟨n - 1, by omega⟩
  rw [cycleTake, List.replicate_succ, List.flatten_cons,
    List.take_append_eq_append_take, List.take_of_length_le hn]
  congr 1
  exact flatten_replicate_take p hp (by omega)

/-- Helper: one pass of the fill loop extends a partial cycle to a longer
one: the chunk the loop takes from the start of the pattern, followed by
the cycle of what remains, is the cycle of the whole remainder. -/
theorem take_min_append_cycleTake (p : List Char) (hp : 1 ≤ p.length)
    (n : Nat) :
    p.take (min n p.length) ++ cycleTake p (n - min n p.length) =
      cycleTake p n := by
  rcases le_total n p.length with hle | hge
  · have h0 : cycleTake p 0 = [] := by simp [cycleTake]
    rw [min_eq_left hle, Nat.sub_self, h0, List.append_nil, cycleTake_of_le p hle]
  · rw [min_eq_right hge, List.take_length, cycleTake_append_of_le p hp hge]

/-- Helper: the `while data.len() < length` loop of
`generate_upload_data_static`, for a non-empty pattern and enough fuel,
terminates and appends exactly the cycled pattern up to the target
length. -/
theorem uploadLoop_eq (pattern : List Char) (hp : 1 ≤ pattern.length)
    (L : Nat) (hL : 9 ≤ L) :
    ∀ (fuel : Nat) (data : List Char), 9 ≤ data.length → data.length ≤ L →
      L - data.length < fuel →
      uploadLoop fuel pattern (L - 9) L data =
        some (data ++ cycleTake pattern (L - data.length))
  | 0, data => by
    intro _ _ hfuel
    omega
  | fuel + 1, data => by
    intro h9 hle hfuel
    rw [uploadLoop]
    by_cases hlt : data.length < L
    · rw [if_pos hlt]
      have hrem : L - 9 - (data.length - 9) = L - data.length := by omega
      rw [hrem]
      have hcn := min_le_left (L - data.length) pattern.length
      have hcle := min_le_right (L - data.length) pattern.length
      have hc1 : 1 ≤ min (L - data.length) pattern.length :=
        le_min (by omega) hp
      have hlen : (data ++ pattern.take (min (L - data.length) pattern.length)).length
          = data.length + min (L - data.length) pattern.length := by
        rw [List.length_append, List.length_take, min_eq_left hcle]
      rw [uploadLoop_eq pattern hp L hL fuel
        (data ++ pattern.take (min (L - data.length) pattern.length))
        (by omega) (by omega) (by omega)]
      rw [hlen, List.append_assoc]
      have hsub : L - (data.length + min (L - data.length) pattern.length) =
          (L - data.length) - min (L - data.length) pattern.length := by omega
      rw [hsub, take_min_append_cycleTake pattern hp (L - data.length)]
    · rw [if_neg hlt]
      have h0 : L - data.length = 0 := by omega
      rw [h0]
      simp [cycleTake]

/-- Helper: the alphabet has 36 characters. -/
theorem uploadChars_length : uploadChars.length = 36 := rfl

/-- Helper: the field marker has 9 characters. -/
theorem uploadMarker_length : uploadMarker.length = 9 := rfl

/-- Helper: for a requested length of at least 18 bytes, the rounded
multiplier is at least 1, so the fill pattern is non-empty. -/
theorem multiplier_pos {L : Nat} (hL : 18 ≤ L) : 1 ≤ multiplier L := by
  rw [multiplier]
  have h1 : (1 : ℤ) ≤ round ((L : ℚ) / 36) := by
    rw [round_eq]
    apply Int.le_floor.mpr
    have hL' : (18 : ℚ) ≤ (L : ℚ) := by exact_mod_cast hL
    push_cast
    linarith
  omega

/-- Helper: the fill pattern has `multiplier L` characters. -/
theorem uploadPattern_length (L : Nat) :
    (uploadPattern L).length = multiplier L := by
  rw [uploadPattern]
  exact length_cycleTake uploadChars (by rw [uploadChars_length]; omega) _

set_option maxRecDepth 16384 in
/-- C4 counterexample, covering both cited generators.  In
`generate_upload_data_static` at requested length 100 the remainder is
not the 36-character alphabet repeated: the multiplier is
round(100/36) = 3, so the filler repeats only the 3-character pattern
"012" — the remainder starts "0120", where the repeated alphabet would
continue "0123".  In the inline generator of speedtest.rs `upload`, at
requested length 53 the payload has length min(53, 36·round(53/36)) = 36,
not the exact requested 53. -/
theorem upload_payload_counterexample :
    (generate_upload_data_static 100).map (fun d => (d.drop 9).take 4) =
      some ('0' :: '1' :: '2' :: '0' :: []) ∧
    (cycleTake uploadChars (100 - 9)).take 4 =
      '0' :: '1' :: '2' :: '3' :: [] ∧
    (generate_upload_data_static 100).map (fun d => d.drop 9) ≠
      some (cycleTake uploadChars (100 - 9)) ∧
    (generate_upload_data_inline 53).map List.length = some 36 ∧
    (generate_upload_data_inline 53).map List.length ≠ some 53 := by
  have h1 : round (((100 : Nat) : ℚ) / 36) = 3 := by norm_num [round_eq]
  have hm : multiplier 100 = 3 := by rw [multiplier, h1]; rfl
  have hpat : uploadPattern 100 = '0' :: '1' :: '2' :: [] := by
    rw [uploadPattern, hm]
    rfl
  have h53 : round (((53 : Nat) : ℚ) / 36) = 1 := by norm_num [round_eq]
  have hm53 : multiplier 53 = 1 := by rw [multiplier, h53]; rfl
  refine ⟨?_, ?_, ?_, ?_, ?_⟩
  · unfold generate_upload_data_static
    rw [hpat]
    decide
  · decide
  · unfold generate_upload_data_static
    rw [hpat]
    decide
  · unfold generate_upload_data_inline
    rw [hm53]
    decide
  · unfold generate_upload_data_inline
    rw [hm53]
    decide

/-- C4 amended, covering both cited generators, for every requested byte
length L ≥ 18.  In upload.rs `generate_upload_data_static` the payload
has exactly length L and begins with the field marker "content1=", but
its remainder is the repetition (truncated to L - 9 bytes) not of the
full 36-character alphabet but of the pattern made of the first
round(L/36) characters of the cycled alphabet.  In the inline generator
of speedtest.rs `upload` the remainder is the full alphabet repeated and
truncated and the payload begins with the marker, but its length is
min(L, 36·round(L/36)), not necessarily L.  (For 10 ≤ L ≤ 17 the first
generator's fill loop never terminates and the second generator's index
arithmetic underflows; for L ≤ 9 the first generator returns the marker
truncated to L bytes.) -/
theorem upload_payload_amended (L : Nat) (hL : 18 ≤ L) :
    (generate_upload_data_static L =
      some (uploadMarker ++ cycleTake (uploadPattern L) (L - 9)) ∧
    ∃ data, generate_upload_data_static L = some data ∧
      data.length = L ∧
      data.take 9 = uploadMarker ∧
      data.drop 9 = cycleTake (uploadPattern L) (L - 9)) ∧
    (∃ data2, generate_upload_data_inline L = some data2 ∧
      data2.length = min L (multiplier L * 36) ∧
      data2.take 9 = uploadMarker ∧
      data2.drop 9 = cycleTake uploadChars (min L (multiplier L * 36) - 9)) := by
  have hp : 1 ≤ (uploadPattern L).length := by
    rw [uploadPattern_length]
    exact multiplier_pos hL
  have hL9 : 9 ≤ L := by omega
  have hm9 := uploadMarker_length
  have hcyc := length_cycleTake (uploadPattern L) hp (L - 9)
  have hloop := uploadLoop_eq (uploadPattern L) hp L hL9 (L + 1) uploadMarker
    (by rw [hm9]) (by omega) (by omega)
  rw [hm9] at hloop
  have hfull : generate_upload_data_static L =
      some (uploadMarker ++ cycleTake (uploadPattern L) (L - 9)) := by
    rw [generate_upload_data_static, hloop]
    have htk : (uploadMarker ++ cycleTake (uploadPattern L) (L - 9)).take L =
        uploadMarker ++ cycleTake (uploadPattern L) (L - 9) := by
      apply List.take_of_length_le
      rw [List.length_append, hm9, hcyc]
      omega
    simp [htk]
  have hm1 : 1 ≤ multiplier L := multiplier_pos hL
  have hclen : ((List.replicate (multiplier L) uploadChars).flatten).length =
      multiplier L * 36 := by
    rw [List.length_flatten, List.map_replicate, uploadChars_length,
      List.sum_replicate, smul_eq_mul]
  have hmin9 : ¬ min L (multiplier L * 36) < 9 := by omega
  have hinline : generate_upload_data_inline L =
      some (uploadMarker ++
        (List.replicate (multiplier L) uploadChars).flatten.take
          (min L (multiplier L * 36) - 9)) := by
    simp only [generate_upload_data_inline, hclen]
    rw [if_neg hmin9]
  refine ⟨⟨hfull, uploadMarker ++ cycleTake (uploadPattern L) (L - 9), hfull,
    ?_, ?_, ?_⟩,
    uploadMarker ++
      (List.replicate (multiplier L) uploadChars).flatten.take
        (min L (multiplier L * 36) - 9), hinline, ?_, ?_, ?_⟩
  · rw [List.length_append, hm9, hcyc]
    omega
  · rw [List.take_append_eq_append_take, hm9, Nat.sub_self, List.take_zero,
      List.append_nil, ← hm9, List.take_length]
  · rw [List.drop_append_eq_append_drop, hm9, Nat.sub_self, List.drop_zero,
      ← hm9, List.drop_length, List.nil_append]
  · rw [List.length_append, hm9, List.length_take, hclen]
    omega
  · rw [List.take_append_eq_append_take, hm9, Nat.sub_self, List.take_zero,
      List.append_nil, ← hm9, List.take_length]
  · rw [List.drop_append_eq_append_drop, hm9, Nat.sub_self, List.drop_zero,
      ← hm9, List.drop_length, List.nil_append]
    exact take_flatten_replicate uploadChars (by rw [uploadChars_length]; omega)

/-- Witness for `upload_payload_amended` at the concrete length 100. -/
theorem upload_payload_amended_witness :
    (18 ≤ 100) ∧
    ((generate_upload_data_static 100 =
      some (uploadMarker ++ cycleTake (uploadPattern 100) (100 - 9)) ∧
    ∃ data, generate_upload_data_static 100 = some data ∧
      data.length = 100 ∧
      data.take 9 = uploadMarker ∧
      data.drop 9 = cycleTake (uploadPattern 100) (100 - 9)) ∧
    (∃ data2, generate_upload_data_inline 100 = some data2 ∧
      data2.length = min 100 (multiplier 100 * 36) ∧
      data2.take 9 = uploadMarker ∧
      data2.drop 9 =
        cycleTake uploadChars (min 100 (multiplier 100 * 36) - 9))) :=
  ⟨by omega, upload_payload_amended 100 (by omega)⟩

/-- Helper: `insertServer` preserves any per-server property that the new
server satisfies. -/
theorem insertServer_forall (P : Server → Prop) :
    ∀ (m : List (Nat × List Server)) (id : Nat) (s : Server),
      (∀ kv ∈ m, ∀ x ∈ kv.2, P x) → P s →
      ∀ kv ∈ insertServer m id s, ∀ x ∈ kv.2, P x
  | [], id, s => by
    intro _ hs kv hkv
    simp only [insertServer, List.mem_singleton] at hkv
    subst hkv
    intro x hx
    rw [List.mem_singleton] at hx
    subst hx
    exact hs
  | (k, v) :: rest, id, s => by
    intro hm hs
    simp only [insertServer]
    by_cases hk : k = id
    · rw [if_pos hk]
      intro kv hkv
      rw [List.mem_cons] at hkv
      rcases hkv with rfl | hkv
      · intro x hx
        rw [List.mem_append] at hx
        rcases hx with hx | hx
        · exact hm (k, v) (by simp) x hx
        · rw [List.mem_singleton] at hx
          subst hx
          exact hs
      · exact hm kv (by simp [hkv])
    · rw [if_neg hk]
      intro kv hkv
      rw [List.mem_cons] at hkv
      rcases hkv with rfl | hkv
      · exact hm (k, v) (by simp)
      · exact insertServer_forall P rest id s
          (fun kv' h' => hm kv' (by simp [h'])) hs kv hkv

/-- Helper: with an include filter, every server `processRecord` adds to
the catalog has its id in the include list. -/
theorem processRecord_included (dist : ℚ × ℚ → ℚ × ℚ → ℚ)
    (lat_lon : ℚ × ℚ) (cfg : Config) (incl : List Nat)
    (exclude : Option (List Nat)) (m : List (Nat × List Server))
    (r : RawServer)
    (hm : ∀ kv ∈ m, ∀ s ∈ kv.2, s.id ∈ incl) :
    ∀ kv ∈ processRecord dist lat_lon cfg (some incl) exclude m r,
      ∀ s ∈ kv.2, s.id ∈ incl := by
  simp only [processRecord]
  split_ifs with h0 h1 h2 h3
  · exact hm
  · exact hm
  · exact hm
  · exact hm
  · simp only [Option.elim_some, decide_eq_true_eq, not_not] at h1
    exact insertServer_forall (fun s => s.id ∈ incl) m _ _ hm h1

/-- Helper: folding a record batch under an include filter preserves the
include invariant. -/
theorem foldl_processRecord_included (dist : ℚ × ℚ → ℚ × ℚ → ℚ)
    (lat_lon : ℚ × ℚ) (cfg : Config) (incl : List Nat)
    (exclude : Option (List Nat)) :
    ∀ (rs : List RawServer) (m : List (Nat × List Server)),
      (∀ kv ∈ m, ∀ s ∈ kv.2, s.id ∈ incl) →
      ∀ kv ∈ rs.foldl (processRecord dist lat_lon cfg (some incl) exclude) m,
        ∀ s ∈ kv.2, s.id ∈ incl
  | [], m => by
    intro hm
    simpa using hm
  | r :: rs, m => by
    intro hm
    rw [List.foldl_cons]
    exact foldl_processRecord_included dist lat_lon cfg incl exclude rs _
      (processRecord_included dist lat_lon cfg incl exclude m r hm)

/-- Helper: one `fetch_servers` call under an include filter preserves the
include invariant on the catalog it returns. -/
theorem fetch_servers_included (dist : ℚ × ℚ → ℚ × ℚ → ℚ)
    (config : Option Config) (lat_lon : ℚ × ℚ) (incl : List Nat)
    (exclude : Option (List Nat)) (batch : BatchResult)
    (m : List (Nat × List Server))
    (hm : ∀ kv ∈ m, ∀ s ∈ kv.2, s.id ∈ incl) :
    ∀ kv ∈ (fetch_servers dist config lat_lon (some incl) exclude batch m).1,
      ∀ s ∈ kv.2, s.id ∈ incl := by
  cases batch with
  | transportError => simpa [fetch_servers] using hm
  | records rs pe =>
    cases config with
    | none => simpa [fetch_servers] using hm
    | some cfg =>
      cases pe <;>
        simpa [fetch_servers] using
          foldl_processRecord_included dist lat_lon cfg incl exclude rs m hm

/-- Helper: the URL fallback loop under an include filter preserves the
include invariant. -/
theorem get_servers_loop_included (dist : ℚ × ℚ → ℚ × ℚ → ℚ)
    (config : Option Config) (lat_lon : ℚ × ℚ) (incl : List Nat)
    (exclude : Option (List Nat)) :
    ∀ (batches : List BatchResult) (m : List (Nat × List Server)),
      (∀ kv ∈ m, ∀ s ∈ kv.2, s.id ∈ incl) →
      ∀ kv ∈ get_servers_loop dist config lat_lon (some incl) exclude
          batches m,
        ∀ s ∈ kv.2, s.id ∈ incl
  | [], m => by
    intro hm
    simpa [get_servers_loop] using hm
  | b :: rest, m => by
    intro hm
    have hfe := fetch_servers_included dist config lat_lon incl exclude b m hm
    simp only [get_servers_loop]
    rcases hres : fetch_servers dist config lat_lon (some incl) exclude b m
      with ⟨m', res⟩
    rw [hres] at hfe
    simp only at hfe
    cases res with
    | none =>
      dsimp only
      by_cases he : m'.isEmpty = true
      · rw [if_pos he]
        exact get_servers_loop_included dist config lat_lon incl exclude
          rest m' hfe
      · rw [if_neg he]
        exact hfe
    | some e =>
      dsimp only
      exact get_servers_loop_included dist config lat_lon incl exclude
        rest m' hfe

/-- C6: discovery fails, and fails with `NoMatchedServers`, exactly when
an include or exclude filter was supplied and the catalog produced by the
URL fallback loop is empty; the only error `get_servers` can return is
`NoMatchedServers`; under an include filter every catalogued server's id
is in the include list; and concretely, an include list {5, 9} against a
batch containing servers 5 and 7 yields exactly server 5 without
error. -/
theorem no_matched_servers_iff (dist : ℚ × ℚ → ℚ × ℚ → ℚ)
    (config : Option Config) (lat_lon : ℚ × ℚ)
    (server_ids exclude : Option (List Nat)) (batches : List BatchResult) :
    (get_servers dist config lat_lon server_ids exclude batches =
        .error .NoMatchedServers ↔
      ((server_ids.isSome || exclude.isSome) = true ∧
        get_servers_loop dist config lat_lon server_ids exclude batches []
          = [])) ∧
    (∀ e, get_servers dist config lat_lon server_ids exclude batches =
        .error e → e = .NoMatchedServers) ∧
    (∀ incl m, server_ids = some incl →
      get_servers dist config lat_lon server_ids exclude batches = .ok m →
      ∀ kv ∈ m, ∀ s ∈ kv.2, s.id ∈ incl) ∧
    get_servers dist0 (some cfg0) (0, 0) (some [5, 9]) none [batch57] =
      .ok [(5, [srv5])] := by
  refine ⟨?_, ?_, ?_, ?_⟩
  · rw [get_servers]
    by_cases hc : ((server_ids.isSome || exclude.isSome) &&
        (get_servers_loop dist config lat_lon server_ids exclude batches
          []).isEmpty) = true
    · rw [if_pos hc]
      simp only [Bool.and_eq_true, List.isEmpty_iff] at hc
      simp [hc.1, hc.2]
    · rw [if_neg hc]
      simp only [Bool.and_eq_true, List.isEmpty_iff] at hc
      constructor
      · intro h
        exact absurd h (by simp)
      · intro h
        exact absurd h hc
  · intro e he
    rw [get_servers] at he
    split_ifs at he with hc
    exact (Except.error.inj he).symm
  · intro incl m hincl hok
    subst hincl
    rw [get_servers] at hok
    split_ifs at hok with hc
    have h := Except.ok.inj hok
    subst h
    exact get_servers_loop_included dist config lat_lon incl exclude
      batches [] (by simp)
  · decide

/-- Witness for `no_matched_servers_iff`: an include list {99} matching no
record yields `NoMatchedServers`. -/
theorem no_matched_servers_iff_witness :
    get_servers dist0 (some cfg0) (0, 0) (some [99]) none [batch57] =
      .error .NoMatchedServers :=
  (no_matched_servers_iff dist0 (some cfg0) (0, 0) (some [99]) none
      [batch57]).1.mpr ⟨rfl, by decide⟩

/-- C7 counterexample: a record whose `lat` attribute is malformed is not
skipped by discovery — it enters the catalog with the latitude defaulted
to 0.0. -/
theorem malformed_record_counterexample :
    rawBadLat.lat_attr = none ∧
    fetch_servers dist0 (some cfg0) (0, 0) none none
      (.records [rawBadLat] false) [] = ([(7, [srvBad])], none) ∧
    srvBad.lat = 0 := by
  refine ⟨rfl, ?_, rfl⟩
  decide

/-- C7 amended: a batch of well-formed XML never fails on account of its
record contents (every record is folded into the catalog and no error is
returned); a record whose id attribute is missing, unparseable or zero is
skipped while the remaining records are still processed; but a record
whose `lat` attribute is malformed is retained, with the latitude
defaulted to 0.0, rather than skipped. -/
theorem malformed_record_amended (dist : ℚ × ℚ → ℚ × ℚ → ℚ) (cfg : Config)
    (lat_lon : ℚ × ℚ) (server_ids exclude : Option (List Nat)) :
    (∀ rs m, fetch_servers dist (some cfg) lat_lon server_ids exclude
        (.records rs false) m =
      (rs.foldl (processRecord dist lat_lon cfg server_ids exclude) m,
        none)) ∧
    (∀ (r : RawServer) m, r.id_attr.getD 0 = 0 →
      processRecord dist lat_lon cfg server_ids exclude m r = m) ∧
    (∀ (r : RawServer) m,
      r.id_attr.getD 0 ≠ 0 →
      server_ids.elim false
        (fun ids => decide (r.id_attr.getD 0 ∉ ids)) = false →
      decide (r.id_attr.getD 0 ∈ cfg.ignore_servers) = false →
      exclude.elim false
        (fun excl => decide (r.id_attr.getD 0 ∈ excl)) = false →
      r.lat_attr = none →
      processRecord dist lat_lon cfg server_ids exclude m r =
        insertServer m (r.id_attr.getD 0)
          { id := r.id_attr.getD 0, sponsor := r.sponsor, name := r.name,
            country := r.country, lat := 0, lon := r.lon_attr.getD 0,
            url := r.url, d := dist lat_lon (0, r.lon_attr.getD 0),
            latency := 0 }) := by
  refine ⟨?_, ?_, ?_⟩
  · intro rs m
    simp [fetch_servers]
  · intro r m h
    simp [processRecord, h]
  · intro r m h0 h1 h2 h3 hlat
    simp only [decide_not] at h1
    simp [processRecord, h0, h1, h2, h3, hlat]

/-- Witness for `malformed_record_amended`: a record with no parseable id
is skipped and leaves the catalog empty. -/
theorem malformed_record_amended_witness :
    rawNoId.id_attr.getD 0 = 0 ∧
    processRecord dist0 (0, 0) cfg0 none none [] rawNoId = [] :=
  ⟨rfl,
    (malformed_record_amended dist0 cfg0 (0, 0) none none).2.1 rawNoId []
      rfl⟩

/-- C8: the haversine distance is symmetric, and is zero on identical
coordinate pairs. -/
theorem distance_symm_zero :
    (∀ a b : ℝ × ℝ, distance a b = distance b a) ∧
    (∀ a : ℝ × ℝ, distance a a = 0) := by
  constructor
  · intro a b
    have hsin : ∀ x y : ℝ, Real.sin (toRadians (x - y) / 2) ^ 2 =
        Real.sin (toRadians (y - x) / 2) ^ 2 := by
      intro x y
      have h : toRadians (x - y) = -(toRadians (y - x)) := by
        rw [toRadians, toRadians]
        ring
      rw [h, neg_div, Real.sin_neg, neg_sq]
    simp only [distance]
    rw [hsin b.1 a.1, hsin b.2 a.2,
      mul_comm (Real.cos (toRadians a.1)) (Real.cos (toRadians b.1))]
  · intro a
    have h0 : toRadians 0 = 0 := by
      rw [toRadians]
      ring
    have hat : atan2 0 1 = 0 := by
      rw [atan2, if_pos one_pos, zero_div, Real.arctan_zero]
    simp [distance, sub_self, h0, Real.sin_zero, zero_div, mul_zero,
      add_zero, Real.sqrt_zero, sub_zero, Real.sqrt_one, hat]
